import Mathlib

/-!
Shallow embedding of the trace-spatial/trace-app core: the zone-graph
service (src/_utils/services/graph.ts) and the behavioral scoring and
candidate-ranking engine (src/_utils/hooks/index.ts, inference service).

JavaScript numbers are modelled as rationals (ℚ); timestamps are rationals.
The ambient JavaScript runtime facilities the source touches — the sampled
`Date.now()` clock, `Math.exp`, and the string formatting used only inside
human-readable reasoning text — are threaded explicitly through a `JSEnv`
value so every definition is a pure total function of its inputs.
-/

namespace Trace

/-! ## Data model (src/_utils/types/domain.ts) -/

/-- An attentional disruption event (`DisruptionEvent`). The `type` union
is carried as a plain string tag. -/
structure DisruptionEvent where
  timestamp : ℚ
  dtype : String
  severity : ℚ
  description : String
deriving DecidableEq

/-- A detected step event (`StepEvent`). -/
structure StepEvent where
  timestamp : ℚ
  stepLengthM : ℚ
  heading : ℚ
  confidence : ℚ
deriving DecidableEq

/-- The inline kinematic-signature object of a `ZoneTransition`. -/
structure TransitionSignature where
  stepsTaken : ℚ
  turnAngleDegrees : ℚ
  transitionDurationMs : ℚ
deriving DecidableEq

/-- A detected zone boundary crossing (`ZoneTransition`); `fromZoneId`
is `string | null` in the source, hence `Option String` here. -/
structure ZoneTransition where
  timestamp : ℚ
  fromZoneId : Option String
  toZoneId : String
  kinematicSignature : TransitionSignature
deriving DecidableEq

/-- The nested `events` object of a `MovementEpisode`. -/
structure EpisodeEvents where
  steps : List StepEvent
  transitions : List ZoneTransition
  disruptions : List DisruptionEvent
deriving DecidableEq

/-- A compressed movement episode (`MovementEpisode`). -/
structure MovementEpisode where
  episodeId : String
  startTime : ℚ
  endTime : ℚ
  durationMs : ℚ
  stepCount : ℚ
  turns : ℚ
  totalDistanceM : ℚ
  averageHeading : ℚ
  confidence : ℚ
  events : EpisodeEvents
deriving DecidableEq

/-- A semantic zone (`Zone`). -/
structure Zone where
  zoneId : String
  label : String
  embedding : List ℚ
  stability : ℚ
  lastSeenTime : ℚ
  frequency : ℚ
  notes : Option String
deriving DecidableEq

/-- The inline kinematic-signature object of a `ZoneEdge`. -/
structure KinematicSignature where
  medianSteps : ℚ
  medianTurnAngle : ℚ
  medianTransitionDurationMs : ℚ
deriving DecidableEq

/-- A directed topological edge between zones (`ZoneEdge`). -/
structure ZoneEdge where
  fromZoneId : String
  toZoneId : String
  kinematicSignature : KinematicSignature
  weight : ℚ
  lastUsedTime : ℚ
deriving DecidableEq

/-- The `estimatedHomeSize` union `"small" | "medium" | "large"`. -/
inductive HomeSize where
  | small
  | medium
  | large
deriving DecidableEq

/-- The inline `metadata` object of a `ZoneGraph`. -/
structure GraphMetadata where
  versionId : ℚ
  estimatedHomeSize : HomeSize
  zoneCount : ℚ
deriving DecidableEq

/-- The complete topological graph (`ZoneGraph`). -/
structure ZoneGraph where
  graphId : String
  createdTime : ℚ
  lastUpdatedTime : ℚ
  zones : List Zone
  edges : List ZoneEdge
  metadata : GraphMetadata
deriving DecidableEq

/-- The `searchRadius` union `'tight' | 'moderate' | 'wide'`. -/
inductive SearchRadius where
  | tight
  | moderate
  | wide
deriving DecidableEq

/-- The inline `reasoning` object of a `CandidateZone`. -/
structure CandidateReasoning where
  disruptionEvent : Option DisruptionEvent
  routineMatch : String
  timeOfDay : String
deriving DecidableEq

/-- A ranked candidate zone (`CandidateZone`). -/
structure CandidateZone where
  zoneId : String
  zoneName : String
  probability : ℚ
  confidence : ℚ
  reasoning : CandidateReasoning
  searchRadius : SearchRadius
deriving DecidableEq

/-- The `status` union of a `LossQuery`. -/
inductive QueryStatus where
  | pending
  | complete
deriving DecidableEq

/-- A user query about a lost object (`LossQuery`). -/
structure LossQuery where
  queryId : String
  objectType : String
  lastSeen : ℚ
  timeWindow : ℚ
  createdTime : ℚ
  candidates : List CandidateZone
  status : QueryStatus
deriving DecidableEq

/-- Ambient JavaScript runtime facilities used by the source: the value of
`Date.now()` sampled for the call, `Math.exp`, and the formatting used only
inside the human-readable `reasoning` strings (`toFixed`, template strings,
`toLocaleTimeString`). -/
structure JSEnv where
  now : ℚ
  exp : ℚ → ℚ
  formatRoutine : ℚ → ℚ → String
  formatTime : ℚ → String

/-- JavaScript `Math.round`: round half toward positive infinity. -/
def jsRound (x : ℚ) : ℚ := ((⌊x + 1 / 2⌋ : ℤ) : ℚ)

/-! ## Graph service (src/_utils/services/graph.ts) -/

/-- `createEmptyGraph()`. `Date.now()` is passed in as `now`. -/
def createEmptyGraph (now : ℚ) : ZoneGraph :=
  { graphId := "graph_" ++ toString now
    createdTime := now
    lastUpdatedTime := now
    zones := []
    edges := []
    metadata :=
      { versionId := 1
        estimatedHomeSize := HomeSize.small
        zoneCount := 0 } }

/-- `addZone(graph, zone)`: no-op when the id is already present, otherwise
append the zone and increment `zoneCount`. -/
def addZone (now : ℚ) (graph : ZoneGraph) (zone : Zone) : ZoneGraph :=
  if graph.zones.any (fun z => z.zoneId == zone.zoneId) then
    graph
  else
    { graph with
        zones := graph.zones ++ [zone]
        metadata := { graph.metadata with zoneCount := (graph.zones.length : ℚ) + 1 }
        lastUpdatedTime := now }

/-- The `findIndex` predicate of `addEdge`: same ordered `(from, to)` pair. -/
def edgeKey (edge : ZoneEdge) (e : ZoneEdge) : Bool :=
  e.fromZoneId == edge.fromZoneId && e.toZoneId == edge.toZoneId

/-- The merge branch of `addEdge`: mean kinematic signature (integer fields
rounded), additive weight reinforcement capped at 1, refreshed timestamp. -/
def mergeEdge (now : ℚ) (existing edge : ZoneEdge) : ZoneEdge :=
  { existing with
      kinematicSignature :=
        { medianSteps :=
            jsRound ((existing.kinematicSignature.medianSteps +
              edge.kinematicSignature.medianSteps) / 2)
          medianTurnAngle :=
            (existing.kinematicSignature.medianTurnAngle +
              edge.kinematicSignature.medianTurnAngle) / 2
          medianTransitionDurationMs :=
            jsRound ((existing.kinematicSignature.medianTransitionDurationMs +
              edge.kinematicSignature.medianTransitionDurationMs) / 2) }
      weight := min 1 (existing.weight + edge.weight * 0.1)
      lastUsedTime := now }

/-- `addEdge(graph, edge)`: merge into the existing edge with the same
ordered pair when one exists, else append. In the source the merged record
is built from `edges[existingEdgeIndex]`, which is exactly the element the
map visits at that index. -/
def addEdge (now : ℚ) (graph : ZoneGraph) (edge : ZoneEdge) : ZoneGraph :=
  let newEdges : List ZoneEdge :=
    match graph.edges.findIdx? (edgeKey edge) with
    | some i => graph.edges.mapIdx (fun idx e => if idx = i then mergeEdge now e edge else e)
    | none => graph.edges ++ [edge]
  { graph with
      edges := newEdges
      lastUpdatedTime := now }

/-- JavaScript `transition.fromZoneId || 'entry'`: the sentinel is used when
`fromZoneId` is `null` or the (falsy) empty string. -/
def jsFromZoneId (transition : ZoneTransition) : String :=
  match transition.fromZoneId with
  | some s => if s = "" then "entry" else s
  | none => "entry"

/-- `recordTransition(graph, transition)`: build a fresh unit-weight edge
from the transition and delegate to `addEdge`. -/
def recordTransition (now : ℚ) (graph : ZoneGraph) (transition : ZoneTransition) : ZoneGraph :=
  let edge : ZoneEdge :=
    { fromZoneId := jsFromZoneId transition
      toZoneId := transition.toZoneId
      kinematicSignature :=
        { medianSteps := transition.kinematicSignature.stepsTaken
          medianTurnAngle := transition.kinematicSignature.turnAngleDegrees
          medianTransitionDurationMs := transition.kinematicSignature.transitionDurationMs }
      weight := 1
      lastUsedTime := transition.timestamp }
  addEdge now graph edge

/-- `estimateHomeSize(graph)`: threshold heuristic on the zone count. -/
def estimateHomeSize (graph : ZoneGraph) : HomeSize :=
  if graph.zones.length < 5 then HomeSize.small
  else if graph.zones.length < 15 then HomeSize.medium
  else HomeSize.large

/-! ## Behavioral scoring and ranking engine (inference service) -/

/-- `computeCSI(disruptions)`: 1 when empty, else average severity
inverted and clamped below at 0. -/
def computeCSI (disruptions : List DisruptionEvent) : ℚ :=
  if disruptions.length = 0 then 1
  else
    let avgSeverity := (disruptions.map (fun d => d.severity)).sum / (disruptions.length : ℚ)
    max 0 (1 - avgSeverity)

/-- `computeBLS(timeSinceLastTransition, totalTransitions)`: recency decay
blended with visit frequency capped at 5, clamped above at 1. -/
def computeBLS (env : JSEnv) (timeSinceLastTransition totalTransitions : ℚ) : ℚ :=
  let recencyDecay := env.exp (-(timeSinceLastTransition / (60 * 1000)))
  let frequencyBoost := min 1 (totalTransitions / 5)
  min 1 ((recencyDecay + frequencyBoost) / 2)

/-- `computeADS(event)`: the event's severity, or 0 when absent. -/
def computeADS (event : Option DisruptionEvent) : ℚ :=
  match event with
  | none => 0
  | some e => e.severity

/-- The inline ternary `disruptions.length > 0 ? disruptions[0].severity : 0`
used for the per-candidate `ads`. -/
def firstSeverity (disruptions : List DisruptionEvent) : ℚ :=
  match disruptions with
  | [] => 0
  | d :: _ => d.severity

/-- The per-candidate disruption window of `rankCandidateZones`: episode
disruptions with timestamp in `[zone.lastSeenTime - 10000, zone.lastSeenTime]`. -/
def windowDisruptions (episode : MovementEpisode) (zone : Zone) : List DisruptionEvent :=
  episode.events.disruptions.filter
    (fun d => decide (d.timestamp ≥ zone.lastSeenTime - 10000) &&
      decide (d.timestamp ≤ zone.lastSeenTime))

/-- The candidate-selection filter of `rankCandidateZones`:
`zone.lastSeenTime >= query.lastSeen - query.timeWindow`. -/
def zoneInWindow (query : LossQuery) (zone : Zone) : Bool :=
  decide (zone.lastSeenTime ≥ query.lastSeen - query.timeWindow)

/-- The map body of `rankCandidateZones`: score one selected zone. -/
def mkCandidate (env : JSEnv) (episode : MovementEpisode) (zone : Zone) : CandidateZone :=
  let disruptions := windowDisruptions episode zone
  let csi := computeCSI disruptions
  let bls := computeBLS env (env.now - zone.lastSeenTime) zone.frequency
  let ads := firstSeverity disruptions
  let probability := 0.4 * ads + 0.35 * bls + 0.25 * (1 - csi)
  let signalCount : ℚ :=
    (if csi < 0.5 then 1 else 0) + (if bls > 0.5 then 1 else 0) + (if ads > 0.3 then 1 else 0)
  let confidence := min 1 (signalCount / 3)
  let searchRadiusA := SearchRadius.moderate
  let searchRadiusB := if confidence > 0.7 then SearchRadius.tight else searchRadiusA
  let searchRadiusC := if confidence < 0.4 then SearchRadius.wide else searchRadiusB
  { zoneId := zone.zoneId
    zoneName := zone.label
    probability := probability
    confidence := confidence
    reasoning :=
      { disruptionEvent := disruptions.head?
        routineMatch := env.formatRoutine zone.frequency zone.stability
        timeOfDay := env.formatTime zone.lastSeenTime }
    searchRadius := searchRadiusC }

/-- The candidate list before priors and sorting: filter then map. -/
def baseCandidates (env : JSEnv) (query : LossQuery) (episode : MovementEpisode)
    (graph : ZoneGraph) : List CandidateZone :=
  (graph.zones.filter (zoneInWindow query)).map (mkCandidate env episode)

/-- The object-prior boost applied to one candidate whose zone name matches. -/
def boostCandidate (priorZone : String) (candidate : CandidateZone) : CandidateZone :=
  if candidate.zoneName = priorZone then
    { candidate with
        probability := min 1 (candidate.probability * 1.2)
        confidence := min 1 (candidate.confidence * 1.1) }
  else candidate

/-- The `objectPriors?.[query.objectType]` step: look the object type up in
the priors map and, when the result is truthy (present and non-empty),
boost every candidate whose zone name matches it. -/
def applyObjectPriors (query : LossQuery) (objectPriors : Option (List (String × String)))
    (candidates : List CandidateZone) : List CandidateZone :=
  match objectPriors.bind (fun priors => List.lookup query.objectType priors) with
  | some priorZone =>
      if priorZone = "" then candidates else candidates.map (boostCandidate priorZone)
  | none => candidates

/-- The descending-probability order realised by the comparator
`(a, b) => b.probability - a.probability`. -/
def probDescending (a b : CandidateZone) : Prop :=
  b.probability ≤ a.probability

instance : DecidableRel probDescending :=
  fun a b => inferInstanceAs (Decidable (b.probability ≤ a.probability))

/-- `rankCandidateZones(query, episode, graph, objectPriors?)`. The episode
and graph arguments carry the JavaScript falsiness check on `!episode` and
`!graph` as `Option`; the sort is the stable sort of the runtime. -/
def rankCandidateZones (env : JSEnv) (query : LossQuery)
    (episode : Option MovementEpisode) (graph : Option ZoneGraph)
    (objectPriors : Option (List (String × String))) : List CandidateZone :=
  match episode, graph with
  | some ep, some g =>
      if g.zones.length = 0 then []
      else
        List.insertionSort probDescending
          (applyObjectPriors query objectPriors (baseCandidates env query ep g))
  | _, _ => []

/-- The `zoneCount == |zones|` bookkeeping invariant of the spec. -/
def zoneCountInv (graph : ZoneGraph) : Prop :=
  graph.metadata.zoneCount = (graph.zones.length : ℚ)

/-- Graphs reachable from `createEmptyGraph()` by the three mutating core
operations, with an arbitrary wall-clock sample at every step. -/
inductive Reachable : ZoneGraph → Prop where
  | empty (now : ℚ) : Reachable (createEmptyGraph now)
  | addZone (now : ℚ) (g : ZoneGraph) (z : Zone) :
      Reachable g → Reachable (addZone now g z)
  | addEdge (now : ℚ) (g : ZoneGraph) (e : ZoneEdge) :
      Reachable g → Reachable (addEdge now g e)
  | recordTransition (now : ℚ) (g : ZoneGraph) (t : ZoneTransition) :
      Reachable g → Reachable (recordTransition now g t)

/-! ## Concrete sample values used to instantiate the theorems -/

/-- A concrete runtime environment with a frozen clock. -/
def sampleEnv : JSEnv :=
  { now := 1000000
    exp := fun _ => 1 / 2
    formatRoutine := fun _ _ => "routine"
    formatTime := fun _ => "time" }

/-- A concrete zone seen one second before `sampleEnv.now`. -/
def sampleZone : Zone :=
  { zoneId := "kitchen"
    label := "Kitchen"
    embedding := []
    stability := 1
    lastSeenTime := 999000
    frequency := 3
    notes := none }

/-- A concrete disruption inside `sampleZone`'s ten-second look-back. -/
def sampleDisruption : DisruptionEvent :=
  { timestamp := 995000
    dtype := "call"
    severity := 1 / 2
    description := "incoming call" }

/-- A concrete movement episode containing `sampleDisruption`. -/
def sampleEpisode : MovementEpisode :=
  { episodeId := "ep"
    startTime := 0
    endTime := 999000
    durationMs := 999000
    stepCount := 0
    turns := 0
    totalDistanceM := 0
    averageHeading := 0
    confidence := 1
    events := { steps := [], transitions := [], disruptions := [sampleDisruption] } }

/-- A concrete loss query whose ten-minute window covers `sampleZone`. -/
def sampleQuery : LossQuery :=
  { queryId := "q"
    objectType := "keys"
    lastSeen := 1000000
    timeWindow := 600000
    createdTime := 1000000
    candidates := []
    status := QueryStatus.pending }

/-- A concrete one-zone graph holding `sampleZone`. -/
def sampleGraph : ZoneGraph :=
  { graphId := "g"
    createdTime := 0
    lastUpdatedTime := 0
    zones := [sampleZone]
    edges := []
    metadata := { versionId := 1, estimatedHomeSize := HomeSize.small, zoneCount := 1 } }

/-- A concrete edge for the pair `(kitchen, hall)`. -/
def sampleEdgeA : ZoneEdge :=
  { fromZoneId := "kitchen"
    toZoneId := "hall"
    kinematicSignature := { medianSteps := 10, medianTurnAngle := 90, medianTransitionDurationMs := 3000 }
    weight := 1 / 2
    lastUsedTime := 0 }

/-- A second concrete edge for the same ordered pair. -/
def sampleEdgeB : ZoneEdge :=
  { fromZoneId := "kitchen"
    toZoneId := "hall"
    kinematicSignature := { medianSteps := 13, medianTurnAngle := 45, medianTransitionDurationMs := 4000 }
    weight := 1
    lastUsedTime := 5 }

/-- A concrete transition with a present, non-empty origin zone. -/
def sampleTransition : ZoneTransition :=
  { timestamp := 7
    fromZoneId := some "hall"
    toZoneId := "kitchen"
    kinematicSignature := { stepsTaken := 4, turnAngleDegrees := 15, transitionDurationMs := 2500 } }

/-- A minimal named zone used to populate graphs. -/
def mkZone (i : String) : Zone :=
  { zoneId := i
    label := i
    embedding := []
    stability := 1
    lastSeenTime := 0
    frequency := 0
    notes := none }

/-- A five-zone graph built by the core operations only. -/
def graphFive : ZoneGraph :=
  addZone 0 (addZone 0 (addZone 0 (addZone 0 (addZone 0 (createEmptyGraph 0)
    (mkZone "a")) (mkZone "b")) (mkZone "c")) (mkZone "d")) (mkZone "e")

/-- An edge out of the sentinel `entry` zone. -/
def entryEdge : ZoneEdge :=
  { fromZoneId := "entry"
    toZoneId := "B"
    kinematicSignature := { medianSteps := 2, medianTurnAngle := 0, medianTransitionDurationMs := 100 }
    weight := 1 / 2
    lastUsedTime := 0 }

/-- A graph whose only edge starts at the sentinel `entry` zone. -/
def graphEntry : ZoneGraph :=
  { graphId := "ge"
    createdTime := 0
    lastUpdatedTime := 0
    zones := []
    edges := [entryEdge]
    metadata := { versionId := 1, estimatedHomeSize := HomeSize.small, zoneCount := 0 } }

/-- A transition whose origin is the present but empty (falsy) string. -/
def emptyFromTransition : ZoneTransition :=
  { timestamp := 5
    fromZoneId := some ""
    toZoneId := "B"
    kinematicSignature := { stepsTaken := 3, turnAngleDegrees := 10, transitionDurationMs := 200 } }

/-! ## Helper lemmas -/

theorem mapIdx_id_of_ge {α : Type} (l : List α) (n : ℕ) (h : l.length ≤ n) (g : α → α) :
    l.mapIdx (fun idx e => if idx = n then g e else e) = l := by
  induction l generalizing n with
  | nil => simp
  | cons x xs ih =>
      rw [List.mapIdx_cons]
      simp only [List.length_cons] at h
      rw [if_neg (by omega : ¬ (0 = n))]
      have step : (xs.mapIdx fun i e => if i + 1 = n then g e else e) = xs := by
        calc (xs.mapIdx fun i e => if i + 1 = n then g e else e)
            = xs.mapIdx (fun i e => if i = n - 1 then g e else e) := by
              congr 1
              funext i e
              congr 1
              simp only [eq_iff_iff]
              omega
          _ = xs := ih (n - 1) (by omega)
      rw [step]

theorem mapIdx_replace_concat {α : Type} (l : List α) (a : α) (g : α → α) :
    (l ++ [a]).mapIdx (fun idx e => if idx = l.length then g e else e) = l ++ [g a] := by
  rw [List.mapIdx_append, mapIdx_id_of_ge l l.length le_rfl g]
  simp

theorem findIdx_concat {α : Type} (p : α → Bool) (l : List α) (a : α)
    (h : ∀ x ∈ l, p x = false) (ha : p a = true) :
    List.findIdx? p (l ++ [a]) = some l.length := by
  rw [List.findIdx?_append, List.findIdx?_eq_none_iff.mpr h]
  simp [List.findIdx?_cons, ha]

theorem edgeKey_eq_false_iff (edge e : ZoneEdge) :
    edgeKey edge e = false ↔ ¬(e.fromZoneId = edge.fromZoneId ∧ e.toZoneId = edge.toZoneId) := by
  simp [edgeKey]

theorem addEdge_zones (now : ℚ) (g : ZoneGraph) (e : ZoneEdge) :
    (addEdge now g e).zones = g.zones := rfl

theorem addEdge_metadata (now : ℚ) (g : ZoneGraph) (e : ZoneEdge) :
    (addEdge now g e).metadata = g.metadata := rfl

theorem recordTransition_zones (now : ℚ) (g : ZoneGraph) (t : ZoneTransition) :
    (recordTransition now g t).zones = g.zones := rfl

theorem recordTransition_metadata (now : ℚ) (g : ZoneGraph) (t : ZoneTransition) :
    (recordTransition now g t).metadata = g.metadata := rfl

theorem addEdge_edges_of_none (now : ℚ) (g : ZoneGraph) (edge : ZoneEdge)
    (h : ∀ e ∈ g.edges, edgeKey edge e = false) :
    (addEdge now g edge).edges = g.edges ++ [edge] := by
  simp only [addEdge, List.findIdx?_eq_none_iff.mpr h]

theorem addEdge_edges_of_some (now : ℚ) (g : ZoneGraph) (edge : ZoneEdge) (i : ℕ)
    (hfind : g.edges.findIdx? (edgeKey edge) = some i) :
    (addEdge now g edge).edges =
      g.edges.mapIdx (fun idx e => if idx = i then mergeEdge now e edge else e) := by
  simp only [addEdge, hfind]

/-! ## Claim theorems: graph service -/

/-- C2: on a graph with no edge for the ordered pair of `e1`, adding `e1`
and then `e2` (same pair, weights in `[0,1]`) leaves exactly one edge for
that pair, appended after the untouched edges; its kinematic signature is
the arithmetic mean of the two inputs (integer-valued fields rounded, the
turn angle unrounded) and its weight is `min 1 (e1.weight + e2.weight * 0.1)`,
at least `e1.weight` and at most 1. -/
theorem addEdge_twice_merges (now0 now1 : ℚ) (g : ZoneGraph) (e1 e2 : ZoneEdge)
    (hg : ∀ e ∈ g.edges, ¬(e.fromZoneId = e1.fromZoneId ∧ e.toZoneId = e1.toZoneId))
    (hfrom : e2.fromZoneId = e1.fromZoneId) (hto : e2.toZoneId = e1.toZoneId)
    (hw1 : 0 ≤ e1.weight) (hw1le : e1.weight ≤ 1)
    (hw2 : 0 ≤ e2.weight) (hw2le : e2.weight ≤ 1) :
    ((addEdge now1 (addEdge now0 g e1) e2).edges.filter (edgeKey e1)).length = 1 ∧
    (addEdge now1 (addEdge now0 g e1) e2).edges =
      g.edges ++
        [{ fromZoneId := e1.fromZoneId
           toZoneId := e1.toZoneId
           kinematicSignature :=
             { medianSteps :=
                 jsRound ((e1.kinematicSignature.medianSteps +
                   e2.kinematicSignature.medianSteps) / 2)
               medianTurnAngle :=
                 (e1.kinematicSignature.medianTurnAngle +
                   e2.kinematicSignature.medianTurnAngle) / 2
               medianTransitionDurationMs :=
                 jsRound ((e1.kinematicSignature.medianTransitionDurationMs +
                   e2.kinematicSignature.medianTransitionDurationMs) / 2) }
           weight := min 1 (e1.weight + e2.weight * 0.1)
           lastUsedTime := now1 }] ∧
    e1.weight ≤ min 1 (e1.weight + e2.weight * 0.1) ∧
    min 1 (e1.weight + e2.weight * 0.1) ≤ 1 := by
  have hg1 : ∀ e ∈ g.edges, edgeKey e1 e = false := fun e he =>
    (edgeKey_eq_false_iff e1 e).mpr (hg e he)
  have hg2 : ∀ e ∈ g.edges, edgeKey e2 e = false := by
    intro e he
    rw [edgeKey_eq_false_iff, hfrom, hto]
    exact hg e he
  have hkey : edgeKey e2 e1 = true := by
    simp [edgeKey, hfrom, hto]
  have h1 : (addEdge now0 g e1).edges = g.edges ++ [e1] := addEdge_edges_of_none now0 g e1 hg1
  have hfind : (addEdge now0 g e1).edges.findIdx? (edgeKey e2) = some g.edges.length := by
    rw [h1]
    exact findIdx_concat _ _ _ hg2 hkey
  have h2 : (addEdge now1 (addEdge now0 g e1) e2).edges =
      g.edges ++ [mergeEdge now1 e1 e2] := by
    rw [addEdge_edges_of_some now1 _ e2 g.edges.length hfind, h1]
    exact mapIdx_replace_concat g.edges e1 (fun e => mergeEdge now1 e e2)
  have hmergekey : edgeKey e1 (mergeEdge now1 e1 e2) = true := by
    simp [edgeKey, mergeEdge]
  refine ⟨?_, by rw [h2]; rfl, le_min hw1le (by linarith), min_le_left _ _⟩
  rw [h2, List.filter_append]
  have hnil : g.edges.filter (edgeKey e1) = [] :=
    List.filter_eq_nil_iff.mpr (fun e he => by simp [hg1 e he])
  rw [hnil]
  simp [hmergekey]

/-- C7: `zoneCount` equals the number of zones on every graph reachable by
the core operations: `createEmptyGraph` establishes the invariant and
`addZone`, `addEdge` and `recordTransition` each preserve it. -/
theorem zoneCount_eq_length :
    (∀ now, zoneCountInv (createEmptyGraph now)) ∧
    (∀ now g z, zoneCountInv g → zoneCountInv (addZone now g z)) ∧
    (∀ now g e, zoneCountInv g → zoneCountInv (addEdge now g e)) ∧
    (∀ now g t, zoneCountInv g → zoneCountInv (recordTransition now g t)) ∧
    (∀ g, Reachable g → zoneCountInv g) := by
  have hempty : ∀ now : ℚ, zoneCountInv (createEmptyGraph now) := by
    intro now
    simp [zoneCountInv, createEmptyGraph]
  have hzone : ∀ (now : ℚ) (g : ZoneGraph) (z : Zone),
      zoneCountInv g → zoneCountInv (addZone now g z) := by
    intro now g z h
    unfold zoneCountInv addZone at *
    split
    · exact h
    · simp
  have hedge : ∀ (now : ℚ) (g : ZoneGraph) (e : ZoneEdge),
      zoneCountInv g → zoneCountInv (addEdge now g e) := by
    intro now g e h
    unfold zoneCountInv
    rw [addEdge_metadata, addEdge_zones]
    exact h
  have htrans : ∀ (now : ℚ) (g : ZoneGraph) (t : ZoneTransition),
      zoneCountInv g → zoneCountInv (recordTransition now g t) := by
    intro now g t h
    unfold zoneCountInv
    rw [recordTransition_metadata, recordTransition_zones]
    exact h
  refine ⟨hempty, hzone, hedge, htrans, ?_⟩
  intro g h
  induction h with
  | empty now => exact hempty now
  | addZone now g z _ ih => exact hzone now g z ih
  | addEdge now g e _ ih => exact hedge now g e ih
  | recordTransition now g t _ ih => exact htrans now g t ih

/-- C7 witness: the invariant holds on a concrete reachable graph, obtained
from the theorem at an explicit derivation. -/
theorem zoneCount_eq_length_witness :
    zoneCountInv (addZone 3 (createEmptyGraph 2) sampleZone) :=
  zoneCount_eq_length.2.2.2.2 _
    (Reachable.addZone 3 (createEmptyGraph 2) sampleZone (Reachable.empty 2))

/-- C8: `addZone` is idempotent: the second of two identical calls is a
no-op (the graph value is returned unchanged), and adding the same zone
twice to the empty graph leaves exactly one zone. -/
theorem addZone_idempotent (now1 now2 : ℚ) (z : Zone) :
    (∀ g, addZone now2 (addZone now1 g z) z = addZone now1 g z) ∧
    ∀ now0, (addZone now2 (addZone now1 (createEmptyGraph now0) z) z).zones.length = 1 := by
  have key : ∀ g, addZone now2 (addZone now1 g z) z = addZone now1 g z := by
    intro g
    by_cases h : g.zones.any (fun x => x.zoneId == z.zoneId) = true
    · have e1 : addZone now1 g z = g := by simp [addZone, h]
      rw [e1]
      simp [addZone, h]
    · have hsecond : ((addZone now1 g z).zones.any (fun x => x.zoneId == z.zoneId)) = true := by
        simp only [addZone, if_neg h]
        simp
      set G := addZone now1 g z with hG
      simp [addZone, hsecond]
  refine ⟨key, fun now0 => ?_⟩
  rw [key]
  simp [addZone, createEmptyGraph]

/-- C9: every reachable graph still reports the initial
`estimatedHomeSize = small` — no core operation recomputes the stored
field — and as soon as it has five or more zones the stored field disagrees
with `estimateHomeSize`. -/
theorem estimatedHomeSize_stale :
    ∀ g, Reachable g → g.metadata.estimatedHomeSize = HomeSize.small ∧
      (5 ≤ g.zones.length → estimateHomeSize g ≠ g.metadata.estimatedHomeSize) := by
  have hsmall : ∀ g, Reachable g → g.metadata.estimatedHomeSize = HomeSize.small := by
    intro g h
    induction h with
    | empty now => rfl
    | addZone now g z _ ih =>
        unfold addZone
        split
        · exact ih
        · exact ih
    | addEdge now g e _ ih =>
        rw [addEdge_metadata]
        exact ih
    | recordTransition now g t _ ih =>
        rw [recordTransition_metadata]
        exact ih
  intro g h
  refine ⟨hsmall g h, fun h5 => ?_⟩
  rw [hsmall g h]
  unfold estimateHomeSize
  split_ifs with hlt hlt2
  · omega
  · decide
  · decide

/-- C9 witness: the five-zone graph built by the core operations still
says `small` while `estimateHomeSize` disagrees. -/
theorem estimatedHomeSize_stale_witness :
    graphFive.metadata.estimatedHomeSize = HomeSize.small ∧
    estimateHomeSize graphFive ≠ graphFive.metadata.estimatedHomeSize := by
  have hreach : Reachable graphFive :=
    Reachable.addZone 0 _ _ (Reachable.addZone 0 _ _ (Reachable.addZone 0 _ _
      (Reachable.addZone 0 _ _ (Reachable.addZone 0 _ _ (Reachable.empty 0)))))
  have h := estimatedHomeSize_stale graphFive hreach
  refine ⟨h.1, h.2 ?_⟩
  simp [graphFive, addZone, createEmptyGraph, mkZone]

/-- C10 (amended): when the graph has no edge for the ordered pair the code
actually uses — `(jsFromZoneId t, t.toZoneId)`, the origin falling back to
`entry` when absent or the empty string — `recordTransition` appends exactly
one new edge with weight 1, `lastUsedTime` equal to the transition
timestamp, and the kinematic fields copied unchanged. -/
theorem recordTransition_appends (now : ℚ) (g : ZoneGraph) (t : ZoneTransition)
    (h : ∀ e ∈ g.edges, ¬(e.fromZoneId = jsFromZoneId t ∧ e.toZoneId = t.toZoneId)) :
    (recordTransition now g t).edges =
      g.edges ++
        [{ fromZoneId := jsFromZoneId t
           toZoneId := t.toZoneId
           kinematicSignature :=
             { medianSteps := t.kinematicSignature.stepsTaken
               medianTurnAngle := t.kinematicSignature.turnAngleDegrees
               medianTransitionDurationMs := t.kinematicSignature.transitionDurationMs }
           weight := 1
           lastUsedTime := t.timestamp }] := by
  unfold recordTransition
  apply addEdge_edges_of_none
  intro e he
  rw [edgeKey_eq_false_iff]
  exact h e he

/-- C10 witness: on the empty graph a concrete transition with a present,
non-empty origin appends exactly the predicted unit-weight edge. -/
theorem recordTransition_appends_witness :
    (recordTransition 8 (createEmptyGraph 0) sampleTransition).edges =
      (createEmptyGraph 0).edges ++
        [{ fromZoneId := jsFromZoneId sampleTransition
           toZoneId := sampleTransition.toZoneId
           kinematicSignature :=
             { medianSteps := sampleTransition.kinematicSignature.stepsTaken
               medianTurnAngle := sampleTransition.kinematicSignature.turnAngleDegrees
               medianTransitionDurationMs :=
                 sampleTransition.kinematicSignature.transitionDurationMs }
           weight := 1
           lastUsedTime := sampleTransition.timestamp }] :=
  recordTransition_appends 8 (createEmptyGraph 0) sampleTransition
    (by simp [createEmptyGraph])

/-- C10 counterexample: with a present-but-empty origin string the code keys
the new edge by the sentinel `entry`, so on a graph that has an
`entry → B` edge but no `"" → B` edge the call merges instead of appending:
the edge count stays equal although the claim — reading the pair's origin as
`t.fromZoneId` with `entry` only for an absent origin — predicts that a new
edge is appended. -/
theorem recordTransition_emptystring_cex :
    emptyFromTransition.fromZoneId = some "" ∧
    (∀ e ∈ graphEntry.edges,
      ¬(e.fromZoneId = "" ∧ e.toZoneId = emptyFromTransition.toZoneId)) ∧
    (recordTransition 9 graphEntry emptyFromTransition).edges.length =
      graphEntry.edges.length := by
  refine ⟨rfl, ?_, ?_⟩
  · intro e he
    simp only [graphEntry, List.mem_singleton] at he
    subst he
    simp [entryEdge, emptyFromTransition]
  · simp [recordTransition, addEdge, jsFromZoneId, graphEntry, emptyFromTransition,
      entryEdge, edgeKey, List.findIdx?_cons, List.mapIdx_cons]

/-! ## Helper lemmas: ranking engine -/

theorem rank_eq (env : JSEnv) (q : LossQuery) (ep : MovementEpisode) (g : ZoneGraph)
    (priors : Option (List (String × String))) (h : ¬ g.zones.length = 0) :
    rankCandidateZones env q (some ep) (some g) priors =
      List.insertionSort probDescending
        (applyObjectPriors q priors (baseCandidates env q ep g)) := by
  simp [rankCandidateZones, h]

theorem mem_rank {env : JSEnv} {q : LossQuery} {ep : MovementEpisode} {g : ZoneGraph}
    {priors : Option (List (String × String))} {c : CandidateZone}
    (hc : c ∈ rankCandidateZones env q (some ep) (some g) priors) :
    c ∈ applyObjectPriors q priors (baseCandidates env q ep g) := by
  by_cases h : g.zones.length = 0
  · simp [rankCandidateZones, h] at hc
  · rw [rank_eq env q ep g priors h] at hc
    exact (List.perm_insertionSort probDescending _).mem_iff.mp hc

theorem mkCandidate_zoneId (env : JSEnv) (ep : MovementEpisode) (z : Zone) :
    (mkCandidate env ep z).zoneId = z.zoneId := rfl

theorem mkCandidate_zoneName (env : JSEnv) (ep : MovementEpisode) (z : Zone) :
    (mkCandidate env ep z).zoneName = z.label := rfl

theorem mkCandidate_probability (env : JSEnv) (ep : MovementEpisode) (z : Zone) :
    (mkCandidate env ep z).probability =
      0.4 * firstSeverity (windowDisruptions ep z) +
      0.35 * computeBLS env (env.now - z.lastSeenTime) z.frequency +
      0.25 * (1 - computeCSI (windowDisruptions ep z)) := rfl

theorem mkCandidate_confidence (env : JSEnv) (ep : MovementEpisode) (z : Zone) :
    (mkCandidate env ep z).confidence =
      min 1 (((if computeCSI (windowDisruptions ep z) < 0.5 then (1 : ℚ) else 0) +
        (if computeBLS env (env.now - z.lastSeenTime) z.frequency > 0.5 then 1 else 0) +
        (if firstSeverity (windowDisruptions ep z) > 0.3 then 1 else 0)) / 3) := rfl

theorem boostCandidate_zoneId (pz : String) (c : CandidateZone) :
    (boostCandidate pz c).zoneId = c.zoneId := by
  unfold boostCandidate
  split <;> rfl

theorem boostCandidate_zoneName (pz : String) (c : CandidateZone) :
    (boostCandidate pz c).zoneName = c.zoneName := by
  unfold boostCandidate
  split <;> rfl

theorem mem_baseCandidates {env : JSEnv} {q : LossQuery} {ep : MovementEpisode}
    {g : ZoneGraph} {c : CandidateZone} :
    c ∈ baseCandidates env q ep g ↔
      ∃ z ∈ g.zones, z.lastSeenTime ≥ q.lastSeen - q.timeWindow ∧ c = mkCandidate env ep z := by
  unfold baseCandidates
  simp only [List.mem_map, List.mem_filter, zoneInWindow, decide_eq_true_eq]
  constructor
  · rintro ⟨z, ⟨hz, hw⟩, he⟩
    exact ⟨z, hz, hw, he.symm⟩
  · rintro ⟨z, hz, hw, he⟩
    exact ⟨z, ⟨hz, hw⟩, he.symm⟩

theorem mem_applyObjectPriors {q : LossQuery} {priors : Option (List (String × String))}
    {cs : List CandidateZone} {c : CandidateZone}
    (hc : c ∈ applyObjectPriors q priors cs) :
    ∃ c' ∈ cs, c = c' ∨
      ∃ pz, priors.bind (fun p => List.lookup q.objectType p) = some pz ∧ pz ≠ "" ∧
        c = boostCandidate pz c' := by
  unfold applyObjectPriors at hc
  split at hc
  next pz heq =>
    split at hc
    · exact ⟨c, hc, Or.inl rfl⟩
    next hpz =>
      rcases List.mem_map.mp hc with ⟨c', hc', he⟩
      exact ⟨c', hc', Or.inr ⟨pz, heq, hpz, he.symm⟩⟩
  next heq => exact ⟨c, hc, Or.inl rfl⟩

theorem applyObjectPriors_map_pair (q : LossQuery) (priors : Option (List (String × String)))
    (cs : List CandidateZone) :
    (applyObjectPriors q priors cs).map (fun c => (c.zoneId, c.zoneName)) =
      cs.map (fun c => (c.zoneId, c.zoneName)) := by
  unfold applyObjectPriors
  split
  next pz heq =>
    split
    · rfl
    · rw [List.map_map]
      exact List.map_congr_left (fun c hc => by
        rw [Function.comp_apply, boostCandidate_zoneId, boostCandidate_zoneName])
  next heq => rfl

theorem computeCSI_nonneg (ds : List DisruptionEvent) : 0 ≤ computeCSI ds := by
  unfold computeCSI
  split
  · norm_num
  · exact le_max_left 0 _

theorem computeCSI_le_one (ds : List DisruptionEvent)
    (h : ∀ d ∈ ds, 0 ≤ d.severity) : computeCSI ds ≤ 1 := by
  unfold computeCSI
  split
  · exact le_refl 1
  next hne =>
    apply max_le (by norm_num)
    have hsum : 0 ≤ (ds.map (fun d => d.severity)).sum := by
      apply List.sum_nonneg
      intro x hx
      rcases List.mem_map.mp hx with ⟨d, hd, rfl⟩
      exact h d hd
    have hlen : (0 : ℚ) ≤ (ds.length : ℚ) := by positivity
    have hdiv : 0 ≤ (ds.map (fun d => d.severity)).sum / (ds.length : ℚ) :=
      div_nonneg hsum hlen
    linarith

theorem computeBLS_le_one (env : JSEnv) (t n : ℚ) : computeBLS env t n ≤ 1 := by
  unfold computeBLS
  exact min_le_left _ _

theorem computeBLS_nonneg (env : JSEnv) (t n : ℚ)
    (hexp : ∀ x, 0 ≤ env.exp x) (hn : 0 ≤ n) : 0 ≤ computeBLS env t n := by
  unfold computeBLS
  have h1 : 0 ≤ env.exp (-(t / (60 * 1000))) := hexp _
  have h2 : (0 : ℚ) ≤ min 1 (n / 5) := le_min (by norm_num) (by positivity)
  exact le_min (by norm_num) (by linarith)

theorem firstSeverity_nonneg (ds : List DisruptionEvent)
    (h : ∀ d ∈ ds, 0 ≤ d.severity) : 0 ≤ firstSeverity ds := by
  cases ds with
  | nil => norm_num [firstSeverity]
  | cons d rest => simpa [firstSeverity] using h d (List.mem_cons_self d rest)

theorem firstSeverity_le_one (ds : List DisruptionEvent)
    (h : ∀ d ∈ ds, d.severity ≤ 1) : firstSeverity ds ≤ 1 := by
  cases ds with
  | nil => norm_num [firstSeverity]
  | cons d rest => simpa [firstSeverity] using h d (List.mem_cons_self d rest)

theorem windowDisruptions_subset {ep : MovementEpisode} {z : Zone} {d : DisruptionEvent}
    (hd : d ∈ windowDisruptions ep z) : d ∈ ep.events.disruptions :=
  (List.mem_filter.mp hd).1

theorem mkCandidate_bounds (env : JSEnv) (ep : MovementEpisode) (z : Zone)
    (hexp : ∀ x, 0 ≤ env.exp x)
    (hsev : ∀ d ∈ ep.events.disruptions, 0 ≤ d.severity ∧ d.severity ≤ 1)
    (hfreq : 0 ≤ z.frequency) :
    0 ≤ (mkCandidate env ep z).probability ∧ (mkCandidate env ep z).probability ≤ 1 ∧
    0 ≤ (mkCandidate env ep z).confidence ∧ (mkCandidate env ep z).confidence ≤ 1 := by
  have hW : ∀ d ∈ windowDisruptions ep z, 0 ≤ d.severity ∧ d.severity ≤ 1 :=
    fun d hd => hsev d (windowDisruptions_subset hd)
  have hcsi0 : 0 ≤ computeCSI (windowDisruptions ep z) := computeCSI_nonneg _
  have hcsi1 : computeCSI (windowDisruptions ep z) ≤ 1 :=
    computeCSI_le_one _ (fun d hd => (hW d hd).1)
  have hbls0 : 0 ≤ computeBLS env (env.now - z.lastSeenTime) z.frequency :=
    computeBLS_nonneg env _ _ hexp hfreq
  have hbls1 : computeBLS env (env.now - z.lastSeenTime) z.frequency ≤ 1 :=
    computeBLS_le_one env _ _
  have hads0 : 0 ≤ firstSeverity (windowDisruptions ep z) :=
    firstSeverity_nonneg _ (fun d hd => (hW d hd).1)
  have hads1 : firstSeverity (windowDisruptions ep z) ≤ 1 :=
    firstSeverity_le_one _ (fun d hd => (hW d hd).2)
  refine ⟨?_, ?_, ?_, ?_⟩
  · rw [mkCandidate_probability]
    linarith
  · rw [mkCandidate_probability]
    linarith
  · rw [mkCandidate_confidence]
    have hs : (0 : ℚ) ≤ (if computeCSI (windowDisruptions ep z) < 0.5 then (1 : ℚ) else 0) +
        (if computeBLS env (env.now - z.lastSeenTime) z.frequency > 0.5 then 1 else 0) +
        (if firstSeverity (windowDisruptions ep z) > 0.3 then 1 else 0) := by
      split_ifs <;> norm_num
    exact le_min (by norm_num) (by linarith)
  · rw [mkCandidate_confidence]
    exact min_le_left _ _

theorem boostCandidate_bounds (pz : String) (c : CandidateZone)
    (h : 0 ≤ c.probability ∧ c.probability ≤ 1 ∧ 0 ≤ c.confidence ∧ c.confidence ≤ 1) :
    0 ≤ (boostCandidate pz c).probability ∧ (boostCandidate pz c).probability ≤ 1 ∧
    0 ≤ (boostCandidate pz c).confidence ∧ (boostCandidate pz c).confidence ≤ 1 := by
  unfold boostCandidate
  split
  · refine ⟨le_min (by norm_num) ?_, min_le_left _ _, le_min (by norm_num) ?_, min_le_left _ _⟩
    · nlinarith [h.1]
    · nlinarith [h.2.2.1]
  · exact h

/-! ## Claim theorems: ranking engine -/

/-- C1: every candidate in the output of `rankCandidateZones` that is not
boosted by a matching object prior carries the probability
`0.4 * ads + 0.35 * bls + 0.25 * (1 - csi)` of its zone, where the window
disruptions are the episode disruptions with timestamp in
`[zone.lastSeenTime - 10000, zone.lastSeenTime]`, `csi` applies `computeCSI`
to that window, `bls` applies `computeBLS` to `now - zone.lastSeenTime` and
the zone frequency, and `ads` is the first window disruption's severity or 0. -/
theorem rank_probability_formula (env : JSEnv) (q : LossQuery) (ep : MovementEpisode)
    (g : ZoneGraph) (priors : Option (List (String × String))) (c : CandidateZone)
    (hc : c ∈ rankCandidateZones env q (some ep) (some g) priors)
    (hnb : ∀ pz, priors.bind (fun p => List.lookup q.objectType p) = some pz →
      pz ≠ "" → c.zoneName ≠ pz) :
    ∃ z ∈ g.zones, z.lastSeenTime ≥ q.lastSeen - q.timeWindow ∧
      c.zoneId = z.zoneId ∧ c.zoneName = z.label ∧
      c.probability =
        0.4 * firstSeverity (windowDisruptions ep z) +
        0.35 * computeBLS env (env.now - z.lastSeenTime) z.frequency +
        0.25 * (1 - computeCSI (windowDisruptions ep z)) := by
  rcases mem_applyObjectPriors (mem_rank hc) with ⟨c', hc', hcase⟩
  rcases mem_baseCandidates.mp hc' with ⟨z, hz, hw, rfl⟩
  rcases hcase with rfl | ⟨pz, hlk, hne, rfl⟩
  · exact ⟨z, hz, hw, rfl, rfl, mkCandidate_probability env ep z⟩
  · have hzn : (boostCandidate pz (mkCandidate env ep z)).zoneName ≠ pz := hnb pz hlk hne
    rw [boostCandidate_zoneName] at hzn
    have hnotb : boostCandidate pz (mkCandidate env ep z) = mkCandidate env ep z := by
      unfold boostCandidate
      rw [if_neg hzn]
    rw [hnotb]
    exact ⟨z, hz, hw, rfl, rfl, mkCandidate_probability env ep z⟩

/-- C3: when every episode disruption severity lies in `[0,1]`, every zone
frequency is non-negative, and the runtime exponential is non-negative (as
`Math.exp` is), every probability and confidence in the output of
`rankCandidateZones` lies in `[0,1]`, the object-prior boosts included. -/
theorem rank_bounded (env : JSEnv) (q : LossQuery) (ep : MovementEpisode) (g : ZoneGraph)
    (priors : Option (List (String × String)))
    (hexp : ∀ x, 0 ≤ env.exp x)
    (hsev : ∀ d ∈ ep.events.disruptions, 0 ≤ d.severity ∧ d.severity ≤ 1)
    (hfreq : ∀ z ∈ g.zones, 0 ≤ z.frequency)
    (c : CandidateZone) (hc : c ∈ rankCandidateZones env q (some ep) (some g) priors) :
    0 ≤ c.probability ∧ c.probability ≤ 1 ∧ 0 ≤ c.confidence ∧ c.confidence ≤ 1 := by
  rcases mem_applyObjectPriors (mem_rank hc) with ⟨c', hc', hcase⟩
  rcases mem_baseCandidates.mp hc' with ⟨z, hz, hw, rfl⟩
  have hbase := mkCandidate_bounds env ep z hexp hsev (hfreq z hz)
  rcases hcase with rfl | ⟨pz, hlk, hne, rfl⟩
  · exact hbase
  · exact boostCandidate_bounds pz _ hbase

/-- C4: `rankCandidateZones` returns the empty sequence when the episode is
absent, the graph is absent, or the graph has no zones; the embedding is a
total function, so no input raises an exception. -/
theorem rank_guard (env : JSEnv) (q : LossQuery) (priors : Option (List (String × String)))
    (ep : Option MovementEpisode) (g : Option ZoneGraph)
    (h : ep = none ∨ g = none ∨ ∃ gr, g = some gr ∧ gr.zones = []) :
    rankCandidateZones env q ep g priors = [] := by
  rcases h with rfl | rfl | ⟨gr, rfl, hz⟩
  · cases g <;> rfl
  · cases ep <;> rfl
  · cases ep with
    | none => rfl
    | some e => simp [rankCandidateZones, hz]

/-- C4 witness: an absent episode with a non-empty graph yields the empty
sequence. -/
theorem rank_guard_witness :
    rankCandidateZones sampleEnv sampleQuery none (some sampleGraph) none = [] :=
  rank_guard sampleEnv sampleQuery none none (some sampleGraph) (Or.inl rfl)

/-- C5: the output of `rankCandidateZones` is sorted non-increasing by
probability, the sort being applied after any object-prior boost. -/
theorem rank_sorted (env : JSEnv) (q : LossQuery) (ep : Option MovementEpisode)
    (g : Option ZoneGraph) (priors : Option (List (String × String))) :
    List.Sorted (fun a b => b.probability ≤ a.probability)
      (rankCandidateZones env q ep g priors) := by
  cases ep with
  | none => cases g <;> exact List.sorted_nil
  | some e =>
      cases g with
      | none => exact List.sorted_nil
      | some gr =>
          by_cases h : gr.zones.length = 0
          · rw [rank_guard env q priors (some e) (some gr)
              (Or.inr (Or.inr ⟨gr, rfl, List.length_eq_zero.mp h⟩))]
            exact List.sorted_nil
          · rw [rank_eq env q e gr priors h]
            haveI : IsTotal CandidateZone probDescending :=
              ⟨fun a b => le_total b.probability a.probability⟩
            haveI : IsTrans CandidateZone probDescending :=
              ⟨fun a b c hab hbc => le_trans hbc hab⟩
            exact List.sorted_insertionSort probDescending _

/-- C6: with the episode and graph present and zones available, the output
candidates correspond one-to-one — as `(zoneId, zoneName)` pairs — with the
zones passing the time filter `zone.lastSeenTime ≥ query.lastSeen - query.timeWindow`. -/
theorem rank_zone_correspondence (env : JSEnv) (q : LossQuery) (ep : MovementEpisode)
    (g : ZoneGraph) (priors : Option (List (String × String)))
    (hz : g.zones.length ≠ 0) :
    ((rankCandidateZones env q (some ep) (some g) priors).map
        (fun c => (c.zoneId, c.zoneName))).Perm
      ((g.zones.filter (zoneInWindow q)).map (fun z => (z.zoneId, z.label))) := by
  rw [rank_eq env q ep g priors hz]
  refine ((List.perm_insertionSort probDescending _).map _).trans ?_
  rw [applyObjectPriors_map_pair]
  unfold baseCandidates
  rw [List.map_map]
  rw [List.map_congr_left (fun z hzz => (rfl :
    ((fun c => (c.zoneId, c.zoneName)) ∘ mkCandidate env ep) z = (z.zoneId, z.label)))]
  exact List.Perm.refl _

/-! ## Witnesses on the concrete sample inputs -/

theorem sample_mem_rank :
    mkCandidate sampleEnv sampleEpisode sampleZone ∈
      rankCandidateZones sampleEnv sampleQuery (some sampleEpisode) (some sampleGraph) none := by
  have hwin : zoneInWindow sampleQuery sampleZone = true := by
    simp only [zoneInWindow, sampleQuery, sampleZone, decide_eq_true_eq]
    norm_num
  have hbase : baseCandidates sampleEnv sampleQuery sampleEpisode sampleGraph =
      [mkCandidate sampleEnv sampleEpisode sampleZone] := by
    unfold baseCandidates
    simp only [sampleGraph]
    rw [List.filter_cons_of_pos hwin]
    rfl
  rw [rank_eq sampleEnv sampleQuery sampleEpisode sampleGraph none (by simp [sampleGraph])]
  have happ : applyObjectPriors sampleQuery none
      (baseCandidates sampleEnv sampleQuery sampleEpisode sampleGraph) =
      baseCandidates sampleEnv sampleQuery sampleEpisode sampleGraph := rfl
  rw [happ, hbase]
  simp [List.insertionSort, List.orderedInsert]

/-- C1 witness: the unboosted sample candidate carries exactly the weighted
score of its zone. -/
theorem rank_probability_formula_witness :
    ∃ z ∈ sampleGraph.zones,
      z.lastSeenTime ≥ sampleQuery.lastSeen - sampleQuery.timeWindow ∧
      (mkCandidate sampleEnv sampleEpisode sampleZone).zoneId = z.zoneId ∧
      (mkCandidate sampleEnv sampleEpisode sampleZone).zoneName = z.label ∧
      (mkCandidate sampleEnv sampleEpisode sampleZone).probability =
        0.4 * firstSeverity (windowDisruptions sampleEpisode z) +
        0.35 * computeBLS sampleEnv (sampleEnv.now - z.lastSeenTime) z.frequency +
        0.25 * (1 - computeCSI (windowDisruptions sampleEpisode z)) :=
  rank_probability_formula sampleEnv sampleQuery sampleEpisode sampleGraph none
    (mkCandidate sampleEnv sampleEpisode sampleZone) sample_mem_rank (by simp)

/-- C2 witness: two concrete same-pair edges merge into a single edge. -/
theorem addEdge_twice_merges_witness :
    ((addEdge 11 (addEdge 10 (createEmptyGraph 0) sampleEdgeA) sampleEdgeB).edges.filter
        (edgeKey sampleEdgeA)).length = 1 :=
  (addEdge_twice_merges 10 11 (createEmptyGraph 0) sampleEdgeA sampleEdgeB
    (by simp [createEmptyGraph]) rfl rfl (by norm_num [sampleEdgeA])
    (by norm_num [sampleEdgeA]) (by norm_num [sampleEdgeB]) (by norm_num [sampleEdgeB])).1

/-- C3 witness: the sample candidate's probability and confidence lie in
`[0,1]`. -/
theorem rank_bounded_witness :
    0 ≤ (mkCandidate sampleEnv sampleEpisode sampleZone).probability ∧
    (mkCandidate sampleEnv sampleEpisode sampleZone).probability ≤ 1 ∧
    0 ≤ (mkCandidate sampleEnv sampleEpisode sampleZone).confidence ∧
    (mkCandidate sampleEnv sampleEpisode sampleZone).confidence ≤ 1 :=
  rank_bounded sampleEnv sampleQuery sampleEpisode sampleGraph none
    (fun x => by norm_num [sampleEnv])
    (by
      intro d hd
      simp only [sampleEpisode, List.mem_singleton] at hd
      subst hd
      norm_num [sampleDisruption])
    (by
      intro z hz
      simp only [sampleGraph, List.mem_singleton] at hz
      subst hz
      norm_num [sampleZone])
    (mkCandidate sampleEnv sampleEpisode sampleZone) sample_mem_rank

/-- C6 witness: the sample output corresponds exactly to the zones passing
the time filter. -/
theorem rank_zone_correspondence_witness :
    ((rankCandidateZones sampleEnv sampleQuery (some sampleEpisode) (some sampleGraph) none).map
        (fun c => (c.zoneId, c.zoneName))).Perm
      ((sampleGraph.zones.filter (zoneInWindow sampleQuery)).map
        (fun z => (z.zoneId, z.label))) :=
  rank_zone_correspondence sampleEnv sampleQuery sampleEpisode sampleGraph none
    (by simp [sampleGraph])

end Trace
